import Mathlib

/-!
Verification development for the causal depthwise 1-D convolution interface
(causal_conv1d_interface.py).

The numeric model is exact rational arithmetic: tensors are total functions
from (batch, channel, time) indices to rationals, and the dtype casts of the
source (x.to(weight.dtype), .to(dtype_in)) are identities.  The silu/swish
nonlinearity (F.silu) is carried as an opaque function parameter: no claim
below depends on its analytic form, only on where it is applied.
-/

/-- Signal-shaped tensors (batch, channel, time), as total functions. -/
abbrev Tensor3 := ℕ → ℕ → ℕ → ℚ

/-- Matrix-shaped tensors (channel, tap) or (batch, channel). -/
abbrev Tensor2 := ℕ → ℕ → ℚ

/-- Vector-shaped tensors (channel,). -/
abbrev Tensor1 := ℕ → ℚ

/-- Integer segment-index tensors (batch, time). -/
abbrev SeqIdxT := ℕ → ℕ → ℤ

/-- Read a length-L time series at an integer position, zero outside [0, L).
This is how torch.nn.functional.conv1d sees a zero-padded input. -/
def readZ (L : ℕ) (x : ℕ → ℚ) (i : ℤ) : ℚ :=
  if 0 ≤ i ∧ i < (L : ℤ) then x i.toNat else 0

/-- Embedding of torch.nn.functional.conv1d restricted to the way the source
calls it: one channel of a depthwise (groups = dim) cross-correlation with
symmetric zero padding pad, filter taps w, and bias b.  Position t of the
output reads input positions t + k - pad for taps k < W; a missing bias is
the bias 0. -/
def F_conv1d_depthwise (Lin W pad : ℕ) (x : ℕ → ℚ) (w : ℕ → ℚ) (b : ℚ) (t : ℕ) : ℚ :=
  b + ∑ k ∈ Finset.range W, w k * readZ Lin x ((t : ℤ) + (k : ℤ) - (pad : ℤ))

/-- Width of the optional initial state: hidden.shape[-1] when present, 0 otherwise. -/
def hiddenWidth : Option (ℕ × Tensor3) → ℕ
  | Option.none => 0
  | some (S, _) => S

/-- Embedding of torch.cat([hidden, x], dim=-1) at one (batch, channel) pair:
the first hiddenWidth positions come from the state, the rest from the signal.
With no state this is the signal itself. -/
def catHidden (hidden : Option (ℕ × Tensor3)) (x : Tensor3) (b d : ℕ) : ℕ → ℚ :=
  match hidden with
  | Option.none => x b d
  | some (S, h) => fun i => if i < S then h b d i else x b d (i - S)

/-- Bias value used for channel d: bias[d] when a bias is supplied, 0 otherwise. -/
def biasOf (bias : Option Tensor1) (d : ℕ) : ℚ :=
  match bias with
  | Option.none => 0
  | some bb => bb d

/-- Embedding of causal_conv1d_ref, elementwise at (b, d, t) for t < L:
concatenate the optional initial state in front of the signal, run F.conv1d
with padding W - 1 and groups = dim, keep the first seqlen outputs, drop the
first hiddenWidth of those, and apply silu to the result unless activation
is None.  Output position t of the final result is position
hiddenWidth hidden + t of the conv1d output. -/
def causal_conv1d_ref (L W : ℕ) (x : Tensor3) (weight : Tensor2) (bias : Option Tensor1)
    (hidden : Option (ℕ × Tensor3)) (activation : Option String) (silu : ℚ → ℚ)
    (b d t : ℕ) : ℚ :=
  (if activation = Option.none then id else silu)
    (F_conv1d_depthwise (hiddenWidth hidden + L) W (W - 1) (catHidden hidden x b d)
      (weight d) (biasOf bias d) (hiddenWidth hidden + t))

/-- Logical source stream of the spec: the concatenation of the optional
initial state and the signal for one (batch, channel) pair, indexed over ℤ
with positions before the start reading zero. -/
def srcOf (x : Tensor3) (hidden : Option (ℕ × Tensor3)) (b d : ℕ) (i : ℤ) : ℚ :=
  match hidden with
  | Option.none => if i < 0 then 0 else x b d i.toNat
  | some (S, h) =>
      if i < 0 then 0
      else if i < (S : ℤ) then h b d i.toNat
      else x b d (i.toNat - S)

/-- Output value described by the spec sentence for the forward engine:
a window of W taps of srcOf ending at the position of the current sample
inside the logical stream (offset hiddenWidth hidden + t), bias added after
the sum, silu applied when activation is silu or swish. -/
def causal_conv1d_spec_out (L W : ℕ) (x : Tensor3) (weight : Tensor2) (bias : Option Tensor1)
    (hidden : Option (ℕ × Tensor3)) (activation : Option String) (silu : ℚ → ℚ)
    (b d t : ℕ) : ℚ :=
  (if activation = some "silu" ∨ activation = some "swish" then silu else id)
    ((∑ k ∈ Finset.range W,
        weight d k * srcOf x hidden b d
          ((hiddenWidth hidden : ℤ) + (t : ℤ) - ((W : ℤ) - 1) + (k : ℤ)))
      + biasOf bias d)

/-- Embedding of the state mutation of causal_conv1d_update_ref:
conv_state.copy_(torch.roll(conv_state, shifts=-1, dims=-1)) followed by
conv_state[:, :, -1] = x.  Rolling by -1 reads slot (k + 1) mod W, and the
last slot (index W - 1) is then overwritten with the new sample. -/
def causal_conv1d_update_ref_state (W : ℕ) (x : Tensor2) (conv_state : Tensor3) : Tensor3 :=
  fun b d k => if k = W - 1 then x b d else conv_state b d ((k + 1) % W)

/-- Embedding of causal_conv1d_update_ref: the pair of the returned output
timestep and the state buffer as left behind by the in-place mutation.  The
output reads the already-updated state: sum of state times weight over the
window axis, bias added when supplied, silu applied unless activation is
None. -/
def causal_conv1d_update_ref (W : ℕ) (x : Tensor2) (conv_state : Tensor3) (weight : Tensor2)
    (bias : Option Tensor1) (activation : Option String) (silu : ℚ → ℚ) :
    Tensor2 × Tensor3 :=
  ((fun b d =>
      (if activation = Option.none then id else silu)
        (match bias with
         | Option.none =>
             ∑ k ∈ Finset.range W,
               causal_conv1d_update_ref_state W x conv_state b d k * weight d k
         | some bb =>
             (∑ k ∈ Finset.range W,
               causal_conv1d_update_ref_state W x conv_state b d k * weight d k) + bb d)),
   causal_conv1d_update_ref_state W x conv_state)

/-- State buffer held before streaming call t when the buffer starts all
zero and the columns of a signal are fed one timestep per call through the
reference update engine. -/
def stream_state (W : ℕ) (x : Tensor3) : ℕ → Tensor3
  | 0 => fun _ _ _ => 0
  | t + 1 => causal_conv1d_update_ref_state W (fun b d => x b d t) (stream_state W x t)

/-- Output of streaming call t: the reference update applied to column t of
the signal and the state accumulated from the previous calls. -/
def stream_out (W : ℕ) (x : Tensor3) (weight : Tensor2) (bias : Option Tensor1)
    (activation : Option String) (silu : ℚ → ℚ) (t : ℕ) : Tensor2 :=
  (causal_conv1d_update_ref W (fun b d => x b d t) (stream_state W x t)
     weight bias activation silu).1

/-- Activation identifiers accepted by every entry point of the source:
None, "silu" and "swish". -/
def validActivations : List (Option String) := [Option.none, some "silu", some "swish"]

/-- Boolean activation flag the wrappers pass to the kernel:
activation in ["silu", "swish"]. -/
def activationFlag (activation : Option String) : Bool :=
  activation == some "silu" || activation == some "swish"

/-- True on Except.ok, false on Except.error. -/
def exceptIsOk {ε α : Type} : Except ε α → Bool
  | Except.ok _ => true
  | Except.error _ => false

/-- A (batch, dim, seqlen) tensor together with its memory strides.  val is
the logical element at an index triple; s0, s1, s2 are the strides of the
batch, channel and time dimensions (x.stride(0), x.stride(1), x.stride(2)).
Only the signal and output-gradient arguments of CausalConv1dFn need their
layout modelled; the claims about the other arguments are value-level. -/
structure Strided3 where
  dB : ℕ
  dD : ℕ
  dL : ℕ
  val : Tensor3
  s0 : ℤ
  s1 : ℤ
  s2 : ℤ

/-- Embedding of Tensor.contiguous(): same logical elements, strides reset
to the row-major pattern for the (dB, dD, dL) shape. -/
def Strided3.contiguous (x : Strided3) : Strided3 :=
  { x with s0 := (x.dD * x.dL : ℕ), s1 := (x.dL : ℕ), s2 := 1 }

/-- Embedding of lines 16-17 of the source: the signal actually handed to the
kernel.  When neither the time stride nor the channel stride is 1 the forward
replaces the signal by its contiguous copy, otherwise it passes it through. -/
def fwdXArg (x : Strided3) : Strided3 :=
  if x.s2 ≠ 1 ∧ x.s1 ≠ 1 then x.contiguous else x

/-- Embedding of the same stride normalization applied to dout in backward
(lines 28-29 of the source). -/
def bwdDoutArg (dout : Strided3) : Strided3 :=
  if dout.s2 ≠ 1 ∧ dout.s1 ≠ 1 then dout.contiguous else dout

/-- Checkpoint left by CausalConv1dFn.forward: exactly the tensors passed to
ctx.save_for_backward(x, weight, bias, seq_idx) plus the boolean ctx.activation.
The optional initial state hidden is not part of this structure, mirroring
its absence from the save_for_backward call. -/
structure CausalConv1dCtx where
  x : Strided3
  weight : Tensor2
  bias : Option Tensor1
  seq_idx : Option SeqIdxT
  activation : Bool

/-- Embedding of CausalConv1dFn.forward.  The CUDA kernel
causal_conv1d_cuda.causal_conv1d_fwd is not part of the translated source, so
it is an arbitrary function argument cuda_fwd; everything the wrapper itself
does is explicit: the activation whitelist check first, the silent stride
normalization of the signal, the checkpoint construction without hidden, and
the call of the kernel on the normalized signal.  The bias and seq_idx
contiguity calls of the source only change layout, which is not modelled for
those value-level arguments. -/
def CausalConv1dFn_forward {α : Type}
    (cuda_fwd : Strided3 → Tensor2 → Option Tensor1 → Option Tensor3 → Option SeqIdxT → Bool → α)
    (x : Strided3) (weight : Tensor2) (bias : Option Tensor1) (hidden : Option Tensor3)
    (seq_idx : Option SeqIdxT) (activation : Option String) :
    Except String (α × CausalConv1dCtx) :=
  if activation ∈ validActivations then
    Except.ok
      (cuda_fwd (fwdXArg x) weight bias hidden seq_idx (activationFlag activation),
       { x := fwdXArg x, weight := weight, bias := bias, seq_idx := seq_idx,
         activation := activationFlag activation })
  else Except.error "activation must be None, silu, or swish"

/-- A value of the Python gradient tuple returned by CausalConv1dFn.backward:
a signal-shaped gradient, a filter-shaped gradient, a bias-shaped gradient,
or the Python constant None. -/
inductive PyGrad
  | t3 (g : Tensor3)
  | t2 (g : Tensor2)
  | t1 (g : Tensor1)
  | none

/-- Embedding of CausalConv1dFn.backward.  The CUDA kernel
causal_conv1d_cuda.causal_conv1d_bwd is an arbitrary function argument
cuda_bwd taking (x, weight, bias, dout, seq_idx, dx-preallocation, activation)
and returning (dx, dweight, dbias).  The wrapper normalizes the stride of
dout, calls the kernel with None for the dx preallocation, and returns the
five-element Python tuple of line 36:
dx, dweight, dbias if bias is not None else None, None, None. -/
def CausalConv1dFn_backward
    (cuda_bwd : Strided3 → Tensor2 → Option Tensor1 → Strided3 → Option SeqIdxT →
      Option Tensor3 → Bool → Tensor3 × Tensor2 × Tensor1)
    (ctx : CausalConv1dCtx) (dout : Strided3) : List PyGrad :=
  [PyGrad.t3 (cuda_bwd ctx.x ctx.weight ctx.bias (bwdDoutArg dout) ctx.seq_idx
      Option.none ctx.activation).1,
   PyGrad.t2 (cuda_bwd ctx.x ctx.weight ctx.bias (bwdDoutArg dout) ctx.seq_idx
      Option.none ctx.activation).2.1,
   if ctx.bias.isSome then
     PyGrad.t1 (cuda_bwd ctx.x ctx.weight ctx.bias (bwdDoutArg dout) ctx.seq_idx
        Option.none ctx.activation).2.2
   else PyGrad.none,
   PyGrad.none,
   PyGrad.none]

/-- Parameters of CausalConv1dFn.forward after ctx, in order.  The autograd
framework pairs the i-th value returned by backward with the i-th entry of
this list. -/
inductive FwdParam
  | x
  | weight
  | bias
  | hidden
  | seq_idx
  | activation
deriving DecidableEq

/-- Forward parameter list of the source signature
forward(ctx, x, weight, bias=None, hidden=None, seq_idx=None, activation=None). -/
def fwdParams : List FwdParam :=
  [FwdParam.x, FwdParam.weight, FwdParam.bias, FwdParam.hidden,
   FwdParam.seq_idx, FwdParam.activation]

/-- Positional convention of torch.autograd.Function: the gradient in slot i
of the backward return tuple is the gradient for forward parameter i. -/
def gradSlotParam (i : ℕ) : Option FwdParam := fwdParams.get? i

/-- Embedding of causal_conv1d_update, the CUDA-backed single-step entry
point: validate the activation identifier first, then hand everything to the
kernel causal_conv1d_cuda.causal_conv1d_update (an arbitrary function
argument) with the boolean activation flag. -/
def causal_conv1d_update {α : Type}
    (cuda_update : Tensor2 → Tensor3 → Tensor2 → Option Tensor1 → Bool → α)
    (x : Tensor2) (conv_state : Tensor3) (weight : Tensor2) (bias : Option Tensor1)
    (activation : Option String) : Except String α :=
  if activation ∈ validActivations then
    Except.ok (cuda_update x conv_state weight bias (activationFlag activation))
  else Except.error "activation must be None, silu, or swish"

/-- The activation whitelist check at the top of causal_conv1d_ref: the body
runs only for a valid identifier, otherwise NotImplementedError is raised
before any computation. -/
def causal_conv1d_ref_checked (L W : ℕ) (x : Tensor3) (weight : Tensor2)
    (bias : Option Tensor1) (hidden : Option (ℕ × Tensor3)) (activation : Option String)
    (silu : ℚ → ℚ) : Except String Tensor3 :=
  if activation ∈ validActivations then
    Except.ok (fun b d t => causal_conv1d_ref L W x weight bias hidden activation silu b d t)
  else Except.error "activation must be None, silu, or swish"

/-- The activation whitelist check at the top of causal_conv1d_update_ref:
output and mutated state are produced only for a valid identifier, otherwise
NotImplementedError is raised before the state buffer is touched. -/
def causal_conv1d_update_ref_checked (W : ℕ) (x : Tensor2) (conv_state : Tensor3)
    (weight : Tensor2) (bias : Option Tensor1) (activation : Option String)
    (silu : ℚ → ℚ) : Except String (Tensor2 × Tensor3) :=
  if activation ∈ validActivations then
    Except.ok (causal_conv1d_update_ref W x conv_state weight bias activation silu)
  else Except.error "activation must be None, silu, or swish"

/-- Example signal used by concrete witnesses. -/
def exX : Tensor3 := fun _ _ t => (t : ℚ) + 1

/-- Example initial state used by concrete witnesses. -/
def exH : Tensor3 := fun _ _ t => (t : ℚ) + 7

/-- Example filter used by concrete witnesses. -/
def exW : Tensor2 := fun _ k => (k : ℚ) + 2

/-- Example bias used by concrete witnesses. -/
def exB : Tensor1 := fun d => (d : ℚ) + 3

/-- Example stand-in for F.silu used by concrete witnesses. -/
def exSilu : ℚ → ℚ := fun q => q * q

/-- Example input timestep used by concrete witnesses. -/
def ex2X : Tensor2 := fun _ d => (d : ℚ) + 4

/-- Example state buffer used by concrete witnesses. -/
def exS : Tensor3 := fun _ _ k => (k : ℚ) + 9

/-- A 1 by 1 by 4 signal whose channel and time strides are both 2. -/
def xNonUnit : Strided3 :=
  { dB := 1, dD := 1, dL := 4, val := exX, s0 := 8, s1 := 2, s2 := 2 }

/-- A 1 by 1 by 4 signal in row-major layout (time stride 1). -/
def xUnit : Strided3 :=
  { dB := 1, dD := 1, dL := 4, val := exX, s0 := 4, s1 := 4, s2 := 1 }

/-- Stub forward kernel used for closed instances. -/
def cudaFwd0 : Strided3 → Tensor2 → Option Tensor1 → Option Tensor3 → Option SeqIdxT →
    Bool → Unit :=
  fun _ _ _ _ _ _ => ()

/-- Stub backward kernel used for closed instances. -/
def cudaBwd0 : Strided3 → Tensor2 → Option Tensor1 → Strided3 → Option SeqIdxT →
    Option Tensor3 → Bool → Tensor3 × Tensor2 × Tensor1 :=
  fun _ _ _ _ _ _ _ => (exX, exW, exB)

/-- A checkpoint with no bias saved. -/
def ctx0 : CausalConv1dCtx :=
  { x := xUnit, weight := exW, bias := Option.none, seq_idx := Option.none,
    activation := false }

/-- A checkpoint with a bias saved. -/
def ctxB : CausalConv1dCtx :=
  { x := xUnit, weight := exW, bias := some exB, seq_idx := Option.none,
    activation := false }

/-- The padded read of the concatenated sequence agrees with the logical
source stream of the spec at every position left of the end of the stream. -/
lemma readZ_cat_eq_srcOf (x : Tensor3) (hidden : Option (ℕ × Tensor3)) (b d : ℕ)
    (L : ℕ) (i : ℤ) (hi : i < (hiddenWidth hidden : ℤ) + (L : ℤ)) :
    readZ (hiddenWidth hidden + L) (catHidden hidden x b d) i = srcOf x hidden b d i := by
  cases hidden with
  | none =>
      simp only [hiddenWidth] at hi
      simp only [readZ, catHidden, srcOf, hiddenWidth]
      split_ifs <;> first | rfl | omega
  | some Sh =>
      obtain ⟨S, h⟩ := Sh
      simp only [hiddenWidth] at hi
      simp only [readZ, catHidden, srcOf, hiddenWidth]
      split_ifs <;> first | rfl | omega

/-- Pre-activation value of the reference forward at a valid output position,
as the spec window sum over the logical source stream with the bias last. -/
lemma F_conv1d_pre_eq (L W : ℕ) (x : Tensor3) (weight : Tensor2)
    (bias : Option Tensor1) (hidden : Option (ℕ × Tensor3)) (b d t : ℕ)
    (hW : 1 ≤ W) (ht : t < L) :
    F_conv1d_depthwise (hiddenWidth hidden + L) W (W - 1) (catHidden hidden x b d)
        (weight d) (biasOf bias d) (hiddenWidth hidden + t)
      = (∑ k ∈ Finset.range W,
          weight d k * srcOf x hidden b d
            ((hiddenWidth hidden : ℤ) + (t : ℤ) - ((W : ℤ) - 1) + (k : ℤ)))
        + biasOf bias d := by
  unfold F_conv1d_depthwise
  rw [add_comm]
  congr 1
  refine Finset.sum_congr rfl ?_
  intro k hk
  have hkW : k < W := Finset.mem_range.mp hk
  have hidx : ((hiddenWidth hidden + t : ℕ) : ℤ) + (k : ℤ) - ((W - 1 : ℕ) : ℤ)
      = (hiddenWidth hidden : ℤ) + (t : ℤ) - ((W : ℤ) - 1) + (k : ℤ) := by omega
  rw [hidx, readZ_cat_eq_srcOf]
  omega

/-- Closed form of the reference forward: for t < L it is the spec window sum
over the logical source stream, bias added after the sum, with silu applied
exactly when activation is not None. -/
lemma causal_conv1d_ref_closed_form (L W : ℕ) (x : Tensor3) (weight : Tensor2)
    (bias : Option Tensor1) (hidden : Option (ℕ × Tensor3)) (activation : Option String)
    (silu : ℚ → ℚ) (b d t : ℕ) (hW : 1 ≤ W) (ht : t < L) :
    causal_conv1d_ref L W x weight bias hidden activation silu b d t
      = (if activation = Option.none then id else silu)
          ((∑ k ∈ Finset.range W,
              weight d k * srcOf x hidden b d
                ((hiddenWidth hidden : ℤ) + (t : ℤ) - ((W : ℤ) - 1) + (k : ℤ)))
            + biasOf bias d) := by
  unfold causal_conv1d_ref
  rw [F_conv1d_pre_eq L W x weight bias hidden b d t hW ht]

/-- After t streaming calls the buffer holds the last W samples of the
zero-extended input stream: slot k holds position t + k - W. -/
lemma stream_state_spec (W : ℕ) (x : Tensor3) (b d : ℕ) (hW : 1 ≤ W) :
    ∀ t k, k < W →
      stream_state W x t b d k = srcOf x Option.none b d ((t : ℤ) + (k : ℤ) - (W : ℤ)) := by
  intro t
  induction t with
  | zero =>
      intro k hk
      simp only [stream_state, srcOf]
      rw [if_pos (by omega)]
  | succ t ih =>
      intro k hk
      by_cases hlast : k = W - 1
      · subst hlast
        have hstep : stream_state W x (t + 1) b d (W - 1) = x b d t := by
          simp [stream_state, causal_conv1d_update_ref_state]
        rw [hstep]
        simp only [srcOf]
        split_ifs with h
        · exact absurd h (by omega)
        · congr 1
          omega
      · have hk1 : k + 1 < W := by omega
        simp only [stream_state, causal_conv1d_update_ref_state, if_neg hlast]
        rw [Nat.mod_eq_of_lt hk1, ih (k + 1) hk1]
        congr 1
        push_cast
        ring

/-- The agreement of the two signals up to the logical time bound carries
over to the logical source stream. -/
lemma srcOf_agree (x xp : Tensor3) (hidden : Option (ℕ × Tensor3)) (b d t : ℕ) (i : ℤ)
    (hagree : ∀ i2 : ℕ, i2 ≤ t → x b d i2 = xp b d i2)
    (hi : i ≤ (hiddenWidth hidden : ℤ) + (t : ℤ)) :
    srcOf x hidden b d i = srcOf xp hidden b d i := by
  cases hidden with
  | none =>
      simp only [hiddenWidth] at hi
      simp only [srcOf]
      split_ifs
      · rfl
      · exact hagree i.toNat (by omega)
  | some Sh =>
      obtain ⟨S, h⟩ := Sh
      simp only [hiddenWidth] at hi
      simp only [srcOf]
      split_ifs
      · rfl
      · rfl
      · exact hagree (i.toNat - S) (by omega)

/-- Claim C1: for t < L the reference forward causal_conv1d_ref computes the
spec formula: a W-tap window sum of the zero-extended concatenation of the
optional initial state and the signal, ending at the position of the current
sample in that stream, with the bias added after the sum and silu applied
elementwise when activation is silu or swish. -/
theorem causal_conv1d_ref_matches_spec (L W : ℕ) (x : Tensor3) (weight : Tensor2)
    (bias : Option Tensor1) (hidden : Option (ℕ × Tensor3)) (activation : Option String)
    (silu : ℚ → ℚ) (b d t : ℕ) (hW : 1 ≤ W) (ht : t < L)
    (ha : activation ∈ validActivations) :
    causal_conv1d_ref L W x weight bias hidden activation silu b d t
      = causal_conv1d_spec_out L W x weight bias hidden activation silu b d t := by
  rw [causal_conv1d_ref_closed_form L W x weight bias hidden activation silu b d t hW ht]
  unfold causal_conv1d_spec_out
  simp only [validActivations, List.mem_cons, List.mem_singleton, List.not_mem_nil,
    or_false] at ha
  rcases ha with ha | ha | ha <;> subst ha <;> simp

/-- Witness for C1 at a concrete input with state, bias and activation. -/
theorem causal_conv1d_ref_matches_spec_witness :
    1 ≤ 2 ∧ (1 : ℕ) < 2 ∧ some "silu" ∈ validActivations
      ∧ causal_conv1d_ref 2 2 exX exW (some exB) (some (1, exH)) (some "silu") exSilu 0 0 1
        = causal_conv1d_spec_out 2 2 exX exW (some exB) (some (1, exH)) (some "silu") exSilu 0 0 1 :=
  ⟨by decide, by decide, by decide,
   causal_conv1d_ref_matches_spec 2 2 exX exW (some exB) (some (1, exH)) (some "silu")
     exSilu 0 0 1 (by decide) (by decide) (by decide)⟩

/-- Claim C4: the reference forward is causal.  If two signals agree at all
times up to and including t, the outputs agree at all times up to and
including t, for the same weight, bias, initial state and activation. -/
theorem causal_conv1d_ref_causality (L W t : ℕ) (x xp : Tensor3) (weight : Tensor2)
    (bias : Option Tensor1) (hidden : Option (ℕ × Tensor3)) (activation : Option String)
    (silu : ℚ → ℚ) (hW : 1 ≤ W) (ht : t < L)
    (hagree : ∀ b d i, i ≤ t → x b d i = xp b d i) :
    ∀ b d τ, τ ≤ t →
      causal_conv1d_ref L W x weight bias hidden activation silu b d τ
        = causal_conv1d_ref L W xp weight bias hidden activation silu b d τ := by
  intro b d τ hτ
  rw [causal_conv1d_ref_closed_form L W x weight bias hidden activation silu b d τ hW
    (by omega)]
  rw [causal_conv1d_ref_closed_form L W xp weight bias hidden activation silu b d τ hW
    (by omega)]
  refine congrArg _ ?_
  refine congrArg (· + biasOf bias d) ?_
  refine Finset.sum_congr rfl ?_
  intro k hk
  have hkW : k < W := Finset.mem_range.mp hk
  refine congrArg (weight d k * ·) ?_
  refine srcOf_agree x xp hidden b d t _ (fun i2 h2 => hagree b d i2 h2) ?_
  omega

/-- Witness for C4: two concrete signals agreeing up to time 1 but different
at time 2 give the same outputs at times 0 and 1. -/
theorem causal_conv1d_ref_causality_witness :
    1 ≤ 2 ∧ (1 : ℕ) < 3
      ∧ causal_conv1d_ref 3 2 (fun _ _ i => if i ≤ 1 then 1 else 5) exW (some exB)
          Option.none Option.none exSilu 0 0 1
        = causal_conv1d_ref 3 2 (fun _ _ i => if i ≤ 1 then 1 else 7) exW (some exB)
          Option.none Option.none exSilu 0 0 1 :=
  ⟨by decide, by decide,
   causal_conv1d_ref_causality 3 2 1 (fun _ _ i => if i ≤ 1 then 1 else 5)
     (fun _ _ i => if i ≤ 1 then 1 else 7) exW (some exB) Option.none Option.none exSilu
     (by decide) (by decide)
     (fun b d i hi => by simp [hi]) 0 0 1 (by decide)⟩

/-- Claim C6: running the reference forward, or the reference update on the
same starting state, with activation disabled and applying silu afterwards
equals running it with the fused silu or swish activation flag; the mutated
state buffer of the update is the same either way. -/
theorem activation_fusion_ref_and_update (L W : ℕ) (x : Tensor3) (weight : Tensor2)
    (bias : Option Tensor1) (hidden : Option (ℕ × Tensor3)) (silu : ℚ → ℚ) (b d t : ℕ)
    (xu : Tensor2) (conv_state : Tensor3) (wu : Tensor2) (biasu : Option Tensor1) :
    (silu (causal_conv1d_ref L W x weight bias hidden Option.none silu b d t)
        = causal_conv1d_ref L W x weight bias hidden (some "silu") silu b d t)
    ∧ (silu (causal_conv1d_ref L W x weight bias hidden Option.none silu b d t)
        = causal_conv1d_ref L W x weight bias hidden (some "swish") silu b d t)
    ∧ (silu ((causal_conv1d_update_ref W xu conv_state wu biasu Option.none silu).1 b d)
        = (causal_conv1d_update_ref W xu conv_state wu biasu (some "silu") silu).1 b d)
    ∧ (silu ((causal_conv1d_update_ref W xu conv_state wu biasu Option.none silu).1 b d)
        = (causal_conv1d_update_ref W xu conv_state wu biasu (some "swish") silu).1 b d)
    ∧ ((causal_conv1d_update_ref W xu conv_state wu biasu Option.none silu).2
        = (causal_conv1d_update_ref W xu conv_state wu biasu (some "silu") silu).2)
    ∧ ((causal_conv1d_update_ref W xu conv_state wu biasu Option.none silu).2
        = (causal_conv1d_update_ref W xu conv_state wu biasu (some "swish") silu).2) :=
  ⟨by simp [causal_conv1d_ref], by simp [causal_conv1d_ref],
   by cases biasu <;> simp [causal_conv1d_update_ref],
   by cases biasu <;> simp [causal_conv1d_update_ref], rfl, rfl⟩

/-- Claim C2: state continuity of the reference forward.  Splitting a
length-L signal at any p with W - 1 <= p <= L, evaluating chunk 1 alone and
chunk 2 with the last W - 1 samples of chunk 1 as initial state reproduces,
position by position, the forward output of the whole signal computed in one
call with no initial state. -/
theorem chunked_ref_matches_full (L W p : ℕ) (x : Tensor3) (weight : Tensor2)
    (bias : Option Tensor1) (activation : Option String) (silu : ℚ → ℚ) (b d : ℕ)
    (hW : 1 ≤ W) (hp : W - 1 ≤ p) (hpL : p ≤ L) :
    (∀ t, t < p →
      causal_conv1d_ref p W x weight bias Option.none activation silu b d t
        = causal_conv1d_ref L W x weight bias Option.none activation silu b d t)
    ∧ (∀ u, u < L - p →
      causal_conv1d_ref (L - p) W (fun b2 d2 i => x b2 d2 (p + i)) weight bias
          (some (W - 1, fun b2 d2 j => x b2 d2 (p - (W - 1) + j))) activation silu b d u
        = causal_conv1d_ref L W x weight bias Option.none activation silu b d (p + u)) := by
  constructor
  · intro t htp
    rw [causal_conv1d_ref_closed_form p W x weight bias Option.none activation silu b d t
      hW htp]
    rw [causal_conv1d_ref_closed_form L W x weight bias Option.none activation silu b d t
      hW (by omega)]
  · intro u hu
    rw [causal_conv1d_ref_closed_form (L - p) W (fun b2 d2 i => x b2 d2 (p + i)) weight bias
      (some (W - 1, fun b2 d2 j => x b2 d2 (p - (W - 1) + j))) activation silu b d u hW hu]
    rw [causal_conv1d_ref_closed_form L W x weight bias Option.none activation silu b d
      (p + u) hW (by omega)]
    refine congrArg _ ?_
    refine congrArg (· + biasOf bias d) ?_
    refine Finset.sum_congr rfl ?_
    intro k hk
    have hkW : k < W := Finset.mem_range.mp hk
    refine congrArg (weight d k * ·) ?_
    simp only [srcOf, hiddenWidth]
    split_ifs <;> first | rfl | omega | (congr 1; omega)

/-- Witness for C2 at W = 2, p = 2, L = 3. -/
theorem chunked_ref_matches_full_witness :
    1 ≤ 2 ∧ 2 - 1 ≤ 2 ∧ (2 : ℕ) ≤ 3
      ∧ causal_conv1d_ref 2 2 exX exW (some exB) Option.none (some "silu") exSilu 0 0 1
        = causal_conv1d_ref 3 2 exX exW (some exB) Option.none (some "silu") exSilu 0 0 1
      ∧ causal_conv1d_ref (3 - 2) 2 (fun b2 d2 i => exX b2 d2 (2 + i)) exW (some exB)
          (some (2 - 1, fun b2 d2 j => exX b2 d2 (2 - (2 - 1) + j))) (some "silu") exSilu 0 0 0
        = causal_conv1d_ref 3 2 exX exW (some exB) Option.none (some "silu") exSilu 0 0 (2 + 0) :=
  ⟨by decide, by decide, by decide,
   (chunked_ref_matches_full 3 2 2 exX exW (some exB) (some "silu") exSilu 0 0
     (by decide) (by decide) (by decide)).1 1 (by decide),
   (chunked_ref_matches_full 3 2 2 exX exW (some exB) (some "silu") exSilu 0 0
     (by decide) (by decide) (by decide)).2 0 (by decide)⟩

/-- Claim C3: streaming equivalence.  Feeding the columns of a signal one
timestep per call through the reference update engine, starting from an all
zero state buffer, produces at call t the value the reference forward gives
at position t for the whole signal with no initial state, for every bias and
activation choice. -/
theorem streaming_update_matches_forward (L W : ℕ) (x : Tensor3) (weight : Tensor2)
    (bias : Option Tensor1) (activation : Option String) (silu : ℚ → ℚ) (b d t : ℕ)
    (hW : 1 ≤ W) (ht : t < L) :
    stream_out W x weight bias activation silu t b d
      = causal_conv1d_ref L W x weight bias Option.none activation silu b d t := by
  rw [causal_conv1d_ref_closed_form L W x weight bias Option.none activation silu b d t
    hW ht]
  have hsum : ∑ k ∈ Finset.range W,
      causal_conv1d_update_ref_state W (fun b2 d2 => x b2 d2 t) (stream_state W x t) b d k
        * weight d k
      = ∑ k ∈ Finset.range W,
          weight d k * srcOf x Option.none b d
            ((hiddenWidth Option.none : ℤ) + (t : ℤ) - ((W : ℤ) - 1) + (k : ℤ)) := by
    refine Finset.sum_congr rfl ?_
    intro k hk
    have hkW : k < W := Finset.mem_range.mp hk
    have hstate : causal_conv1d_update_ref_state W (fun b2 d2 => x b2 d2 t)
        (stream_state W x t) b d k = stream_state W x (t + 1) b d k := rfl
    rw [hstate, stream_state_spec W x b d hW (t + 1) k hkW, mul_comm]
    refine congrArg (weight d k * ·) ?_
    refine congrArg _ ?_
    simp only [hiddenWidth]
    omega
  have hout : stream_out W x weight bias activation silu t b d
      = (if activation = Option.none then id else silu)
          ((∑ k ∈ Finset.range W,
              causal_conv1d_update_ref_state W (fun b2 d2 => x b2 d2 t)
                (stream_state W x t) b d k * weight d k)
            + biasOf bias d) := by
    cases bias with
    | none => simp [stream_out, causal_conv1d_update_ref, biasOf]
    | some bb => simp [stream_out, causal_conv1d_update_ref, biasOf]
  rw [hout, hsum]

/-- Witness for C3 at W = 2, L = 2, t = 1. -/
theorem streaming_update_matches_forward_witness :
    1 ≤ 2 ∧ (1 : ℕ) < 2
      ∧ stream_out 2 exX exW (some exB) (some "silu") exSilu 1 0 0
        = causal_conv1d_ref 2 2 exX exW (some exB) Option.none (some "silu") exSilu 0 0 1 :=
  ⟨by decide, by decide,
   streaming_update_matches_forward 2 2 exX exW (some exB) (some "silu") exSilu 0 0 1
     (by decide) (by decide)⟩

/-- Sum over the updated rolling state equals the sum over the shift-left
description of the claim, for a window of width at least 1. -/
lemma update_state_sum_eq (W : ℕ) (x : Tensor2) (s : Tensor3) (w : Tensor2) (b d : ℕ)
    (hW : 1 ≤ W) :
    ∑ k ∈ Finset.range W, causal_conv1d_update_ref_state W x s b d k * w d k
      = ∑ k ∈ Finset.range W, (if k = W - 1 then x b d else s b d (k + 1)) * w d k := by
  refine Finset.sum_congr rfl ?_
  intro k hk
  have hkW : k < W := Finset.mem_range.mp hk
  by_cases hlast : k = W - 1
  · simp [causal_conv1d_update_ref_state, hlast]
  · have hk1 : k + 1 < W := by omega
    simp [causal_conv1d_update_ref_state, hlast, Nat.mod_eq_of_lt hk1]

/-- Claim C5: one reference update call leaves the state buffer equal to the
old state shifted left by one slot with the new sample in the last slot, and
returns the dot product of the new state with the filter, plus the bias when
supplied, with silu applied when activation is enabled. -/
theorem causal_conv1d_update_ref_step (W : ℕ) (x : Tensor2) (conv_state : Tensor3)
    (weight : Tensor2) (bias : Option Tensor1) (activation : Option String)
    (silu : ℚ → ℚ) (b d : ℕ) (hW : 1 ≤ W) :
    (∀ k, k < W →
      (causal_conv1d_update_ref W x conv_state weight bias activation silu).2 b d k
        = if k = W - 1 then x b d else conv_state b d (k + 1))
    ∧ (activation = Option.none →
        (causal_conv1d_update_ref W x conv_state weight bias activation silu).1 b d
          = (∑ k ∈ Finset.range W,
              (if k = W - 1 then x b d else conv_state b d (k + 1)) * weight d k)
            + biasOf bias d)
    ∧ (activation ≠ Option.none →
        (causal_conv1d_update_ref W x conv_state weight bias activation silu).1 b d
          = silu ((∑ k ∈ Finset.range W,
              (if k = W - 1 then x b d else conv_state b d (k + 1)) * weight d k)
            + biasOf bias d)) := by
  refine ⟨?_, ?_, ?_⟩
  · intro k hk
    by_cases hlast : k = W - 1
    · simp [causal_conv1d_update_ref, causal_conv1d_update_ref_state, hlast]
    · have hk1 : k + 1 < W := by omega
      simp [causal_conv1d_update_ref, causal_conv1d_update_ref_state, hlast,
        Nat.mod_eq_of_lt hk1]
  · intro ha
    subst ha
    cases bias with
    | none =>
        simp [causal_conv1d_update_ref, biasOf,
          update_state_sum_eq W x conv_state weight b d hW]
    | some bb =>
        simp [causal_conv1d_update_ref, biasOf,
          update_state_sum_eq W x conv_state weight b d hW]
  · intro ha
    cases bias with
    | none =>
        simp [causal_conv1d_update_ref, biasOf, ha,
          update_state_sum_eq W x conv_state weight b d hW]
    | some bb =>
        simp [causal_conv1d_update_ref, biasOf, ha,
          update_state_sum_eq W x conv_state weight b d hW]

/-- Witness for C5 at W = 2 with bias and fused activation. -/
theorem causal_conv1d_update_ref_step_witness :
    1 ≤ 2
      ∧ (causal_conv1d_update_ref 2 ex2X exS exW (some exB) (some "silu") exSilu).2 0 0 0
        = (if (0 : ℕ) = 2 - 1 then ex2X 0 0 else exS 0 0 (0 + 1))
      ∧ (causal_conv1d_update_ref 2 ex2X exS exW (some exB) (some "silu") exSilu).1 0 0
        = exSilu ((∑ k ∈ Finset.range 2,
            (if k = 2 - 1 then ex2X 0 0 else exS 0 0 (k + 1)) * exW 0 k)
          + biasOf (some exB) 0) :=
  ⟨by decide,
   (causal_conv1d_update_ref_step 2 ex2X exS exW (some exB) (some "silu") exSilu 0 0
     (by decide)).1 0 (by decide),
   (causal_conv1d_update_ref_step 2 ex2X exS exW (some exB) (some "silu") exSilu 0 0
     (by decide)).2.2 (by decide)⟩

/-- An entry point of the shape used by all four wrappers reports ok exactly
when its guard holds. -/
lemma exceptIsOk_if {α : Type} (c : Prop) [Decidable c] (a : α) (e : String) :
    exceptIsOk (if c then Except.ok a else Except.error e) = true ↔ c := by
  by_cases h : c <;> simp [h, exceptIsOk]

/-- Claim C8: all four entry points validate the activation identifier
before anything else.  Exactly None, silu and swish are accepted; any other
identifier produces the NotImplementedError result, and that result is
independent of the kernel arguments and buffers (they are universally
quantified here), so no computation and no state mutation has happened. -/
theorem activation_validated_at_every_entry_point (activation : Option String)
    (α : Type)
    (cf : Strided3 → Tensor2 → Option Tensor1 → Option Tensor3 → Option SeqIdxT → Bool → α)
    (cu : Tensor2 → Tensor3 → Tensor2 → Option Tensor1 → Bool → α)
    (xs : Strided3) (w : Tensor2) (bias : Option Tensor1) (hidden3 : Option Tensor3)
    (seq : Option SeqIdxT) (L W : ℕ) (x : Tensor3) (hidden : Option (ℕ × Tensor3))
    (silu : ℚ → ℚ) (xu : Tensor2) (st : Tensor3) :
    (exceptIsOk (CausalConv1dFn_forward cf xs w bias hidden3 seq activation) = true
      ↔ activation ∈ validActivations)
    ∧ (exceptIsOk (causal_conv1d_ref_checked L W x w bias hidden activation silu) = true
      ↔ activation ∈ validActivations)
    ∧ (exceptIsOk (causal_conv1d_update cu xu st w bias activation) = true
      ↔ activation ∈ validActivations)
    ∧ (exceptIsOk (causal_conv1d_update_ref_checked W xu st w bias activation silu) = true
      ↔ activation ∈ validActivations) := by
  refine ⟨?_, ?_, ?_, ?_⟩
  · unfold CausalConv1dFn_forward
    exact exceptIsOk_if _ _ _
  · unfold causal_conv1d_ref_checked
    exact exceptIsOk_if _ _ _
  · unfold causal_conv1d_update
    exact exceptIsOk_if _ _ _
  · unfold causal_conv1d_update_ref_checked
    exact exceptIsOk_if _ _ _

/-- Claim C9 counterexample: for a signal whose channel and time strides are
both 2, CausalConv1dFn.forward does not leave the layout to the caller: it
itself replaces the signal by its contiguous copy before dispatch, so the
signal handed to the kernel and saved in the checkpoint differs from the
input, refuting that normalization is not performed silently by the engine. -/
theorem forward_normalizes_nonunit_stride :
    xNonUnit.s1 ≠ 1 ∧ xNonUnit.s2 ≠ 1
      ∧ CausalConv1dFn_forward cudaFwd0 xNonUnit exW (some exB) Option.none Option.none
          Option.none
        = Except.ok ((), ⟨xNonUnit.contiguous, exW, some exB, Option.none, false⟩)
      ∧ xNonUnit.contiguous.s2 = 1 ∧ xNonUnit.s2 = 2
      ∧ fwdXArg xNonUnit ≠ xNonUnit := by
  refine ⟨by decide, by decide, rfl, by decide, by decide, ?_⟩
  intro h
  exact absurd (congrArg Strided3.s2 h) (by decide)

/-- Claim C9 amended: a signal with unit stride on the time or the channel
dimension is accepted directly (passed to the kernel and checkpointed
unchanged); when neither dimension has unit stride, the forward itself
silently normalizes the signal with contiguous() before dispatch. -/
theorem forward_stride_handling (α : Type)
    (cf : Strided3 → Tensor2 → Option Tensor1 → Option Tensor3 → Option SeqIdxT → Bool → α)
    (x : Strided3) (w : Tensor2) (bias : Option Tensor1) (hidden : Option Tensor3)
    (seq : Option SeqIdxT) :
    ((x.s2 = 1 ∨ x.s1 = 1) →
      CausalConv1dFn_forward cf x w bias hidden seq Option.none
        = Except.ok (cf x w bias hidden seq false, ⟨x, w, bias, seq, false⟩))
    ∧ (x.s2 ≠ 1 → x.s1 ≠ 1 →
      CausalConv1dFn_forward cf x w bias hidden seq Option.none
        = Except.ok (cf x.contiguous w bias hidden seq false,
            ⟨x.contiguous, w, bias, seq, false⟩)) := by
  constructor
  · intro h
    have hx : fwdXArg x = x := by
      unfold fwdXArg
      rw [if_neg]
      tauto
    unfold CausalConv1dFn_forward
    rw [if_pos (by simp [validActivations]), hx]
    rfl
  · intro h1 h2
    have hx : fwdXArg x = x.contiguous := by
      unfold fwdXArg
      rw [if_pos ⟨h1, h2⟩]
    unfold CausalConv1dFn_forward
    rw [if_pos (by simp [validActivations]), hx]
    rfl

/-- Witness for the amended C9: a unit-stride signal passes through
unchanged, a doubly strided one is replaced by its contiguous copy. -/
theorem forward_stride_handling_witness :
    (xUnit.s2 = 1 ∨ xUnit.s1 = 1) ∧ xNonUnit.s2 ≠ 1 ∧ xNonUnit.s1 ≠ 1
      ∧ CausalConv1dFn_forward cudaFwd0 xUnit exW (some exB) Option.none Option.none
          Option.none
        = Except.ok ((), ⟨xUnit, exW, some exB, Option.none, false⟩)
      ∧ CausalConv1dFn_forward cudaFwd0 xNonUnit exW (some exB) Option.none Option.none
          Option.none
        = Except.ok ((), ⟨xNonUnit.contiguous, exW, some exB, Option.none, false⟩) :=
  ⟨by decide, by decide, by decide,
   (forward_stride_handling Unit cudaFwd0 xUnit exW (some exB) Option.none Option.none).1
     (by decide),
   (forward_stride_handling Unit cudaFwd0 xNonUnit exW (some exB) Option.none
     Option.none).2 (by decide) (by decide)⟩

/-- Claim C7, evaluated at a backward invocation: the third returned value
is None exactly when no bias was saved and the kernel's dbias when one was,
as the claim states; but the return statement has only five elements against
the six forward parameters, so there is no sixth entry that could hold the
None gradient for the activation argument — the claimed always-None
activation gradient does not exist, and the autograd arity check fires
instead. -/
theorem backward_gradient_arity :
    ((CausalConv1dFn_backward cudaBwd0 ctx0 xUnit)[2]? = some PyGrad.none)
      ∧ ((CausalConv1dFn_backward cudaBwd0 ctxB xUnit)[2]?
          = some (PyGrad.t1 (cudaBwd0 ctxB.x ctxB.weight ctxB.bias (bwdDoutArg xUnit)
              ctxB.seq_idx Option.none ctxB.activation).2.2))
      ∧ (CausalConv1dFn_backward cudaBwd0 ctx0 xUnit).length = 5
      ∧ fwdParams.length = 6 :=
  ⟨rfl, rfl, rfl, rfl⟩

/-- Claim C10 counterexample: pairing the five backward return slots with
the six forward parameters positionally, slot 3 belongs to the hidden
parameter (not to the segment index) and slot 4 to the segment index (not
to the activation), and no slot at all belongs to the activation parameter:
the claim's reading of the tuple as entries for signal, weight, bias,
segment index and activation is false. -/
theorem backward_grad_slots_positional :
    gradSlotParam 3 = some FwdParam.hidden
      ∧ gradSlotParam 3 ≠ some FwdParam.seq_idx
      ∧ gradSlotParam 4 = some FwdParam.seq_idx
      ∧ gradSlotParam 4 ≠ some FwdParam.activation
      ∧ gradSlotParam 5 = some FwdParam.activation
      ∧ (CausalConv1dFn_backward cudaBwd0 ctx0 xUnit).length = 5
      ∧ fwdParams.length = 6 :=
  ⟨rfl, by decide, rfl, by decide, rfl, rfl, rfl⟩

/-- Claim C10 amended: the checkpoint saved by CausalConv1dFn.forward
contains only the normalized signal, the filter, the bias, the segment index
and the activation flag — it is identical for any two hidden arguments, so
the initial state is never saved — and backward returns five gradient
entries, which positionally cover signal, weight, bias, hidden and segment
index, leaving no entry for the activation parameter; the entries in the
slots of hidden and of the segment index are always None, so in particular a
gradient for the initial state is never produced. -/
theorem checkpoint_excludes_hidden (α : Type)
    (cf : Strided3 → Tensor2 → Option Tensor1 → Option Tensor3 → Option SeqIdxT → Bool → α)
    (x : Strided3) (w : Tensor2) (bias : Option Tensor1) (h1 h2 : Option Tensor3)
    (seq : Option SeqIdxT) (activation : Option String)
    (cb : Strided3 → Tensor2 → Option Tensor1 → Strided3 → Option SeqIdxT →
      Option Tensor3 → Bool → Tensor3 × Tensor2 × Tensor1)
    (ctx : CausalConv1dCtx) (dout : Strided3) :
    (Except.map Prod.snd (CausalConv1dFn_forward cf x w bias h1 seq activation)
      = Except.map Prod.snd (CausalConv1dFn_forward cf x w bias h2 seq activation))
    ∧ (CausalConv1dFn_backward cb ctx dout).length = 5
    ∧ fwdParams.length = 6
    ∧ gradSlotParam 3 = some FwdParam.hidden
    ∧ (CausalConv1dFn_backward cb ctx dout)[3]? = some PyGrad.none
    ∧ (CausalConv1dFn_backward cb ctx dout)[4]? = some PyGrad.none := by
  refine ⟨?_, rfl, rfl, rfl, rfl, rfl⟩
  unfold CausalConv1dFn_forward
  split <;> rfl
